import Mathlib

/-!
Verification development for the Document Fidelity Pipeline of the
Agentic-Resume-Intelligence repository.

The Python sources under tools/ are shallowly embedded below:
strings are Lean strings (lists of characters), Python dicts parsed from
JSON are association lists, floats are modelled as exact rationals, and
fallible code returns Except.  Each definition carries a comment naming
the Python function it embeds.
-/

namespace ARI

/-- Python substring test `needle in hay`, on character lists:
true iff `needle` occurs contiguously in `hay`. -/
def containsSub : List Char → List Char → Bool
  | n, [] => n.isEmpty
  | n, c :: rest => n.isPrefixOf (c :: rest) || containsSub n rest

/-- `containsSub` lifted to strings (Python `a in b`). -/
def containsSubStr (needle hay : String) : Bool :=
  containsSub needle.data hay.data

/-- Python `str.replace(pat, rep)` (all occurrences, scanned left to right,
non-overlapping), written with an explicit fuel argument so the recursion is
structural; each step consumes at least one character, so fuel equal to the
length of the scanned list is always sufficient (see `replaceL`). -/
def replaceFuel (pat rep : List Char) : Nat → List Char → List Char
  | _, [] => []
  | 0, s => s
  | Nat.succ fuel, c :: rest =>
    if pat ≠ [] ∧ pat.isPrefixOf (c :: rest) then
      rep ++ replaceFuel pat rep fuel (List.drop (pat.length - 1) rest)
    else
      c :: replaceFuel pat rep fuel rest

/-- Python `str.replace(pat, rep)` on character lists. -/
def replaceL (pat rep s : List Char) : List Char :=
  replaceFuel pat rep s.length s

/-- A sequence of `str.replace` calls applied in order (the way the Python
normalizers chain their replacements). -/
def applyReplacements (ps : List (List Char × List Char)) (l : List Char) : List Char :=
  ps.foldl (fun acc p => replaceL p.1 p.2 acc) l

/-- The character class matched by Python's regex `\s` on `str`
(ASCII whitespace plus the Unicode whitespace code points). -/
def isPySpace (c : Char) : Bool :=
  let n := c.toNat
  decide ((9 ≤ n ∧ n ≤ 13) ∨ (28 ≤ n ∧ n ≤ 31) ∨ n = 32 ∨ n = 0x85 ∨ n = 0xA0 ∨
    n = 0x1680 ∨ (0x2000 ≤ n ∧ n ≤ 0x200A) ∨ n = 0x2028 ∨ n = 0x2029 ∨
    n = 0x202F ∨ n = 0x205F ∨ n = 0x3000)

/-- Predicate kept by the whitespace-stripping step `re.sub(r'\s+', '', text)`. -/
def notSpaceP (c : Char) : Bool := !(isPySpace c)

/-- The ASCII case table used to embed Python `str.lower()` (the inputs the
pipeline compares are ASCII once ligatures and punctuation are folded). -/
def asciiLowerTable : List (Char × Char) :=
  [('A', 'a'), ('B', 'b'), ('C', 'c'), ('D', 'd'), ('E', 'e'), ('F', 'f'),
   ('G', 'g'), ('H', 'h'), ('I', 'i'), ('J', 'j'), ('K', 'k'), ('L', 'l'),
   ('M', 'm'), ('N', 'n'), ('O', 'o'), ('P', 'p'), ('Q', 'q'), ('R', 'r'),
   ('S', 's'), ('T', 't'), ('U', 'u'), ('V', 'v'), ('W', 'w'), ('X', 'x'),
   ('Y', 'y'), ('Z', 'z')]

/-- Python `str.lower()` on one character (ASCII fragment). -/
def lowerChar (c : Char) : Char :=
  ((asciiLowerTable.find? (fun p => p.1 == c)).map (fun p => p.2)).getD c

/-- Python `str.lower()` on a string (ASCII fragment). -/
def lowerStr (s : String) : String := ⟨s.data.map lowerChar⟩

/-- The chain of `str.replace` calls performed by `normalize`
(tools/fidelity_auditor.py lines 28-45) and, identically, by
`normalize_text` (tools/lib/utils.py lines 69-78), in source order:
bullet artifacts, `\textbar` markers (the second Python literal
`'\textbar'` contains a real tab character), smart quotes, dashes,
and the five ligature code points. -/
def normRepls : List (List Char × List Char) :=
  [("\\textbullet".data, "".data),
   ("•".data, "".data),
   ("•".data, "".data),
   ("\\textbar".data, "|".data),
   ("\textbar".data, "|".data),
   ("’".data, "\x27".data),
   ("‘".data, "\x27".data),
   ("“".data, "\"".data),
   ("”".data, "\"".data),
   ("—".data, "--".data),
   ("–".data, "-".data),
   ("ﬀ".data, "ff".data),
   ("ﬁ".data, "fi".data),
   ("ﬂ".data, "fl".data),
   ("ﬃ".data, "ffi".data),
   ("ﬄ".data, "ffl".data)]

/-- The body of `normalize` on the character list of a non-empty input:
replacements, then whitespace removal (`re.sub(r'\s+', '', ...)`),
then `.lower()`. -/
def normListChars (l : List Char) : List Char :=
  ((applyReplacements normRepls l).filter notSpaceP).map lowerChar

/-- `normalize` from tools/fidelity_auditor.py lines 25-47: empty or absent
input returns the empty string, otherwise artifacts, typographic quotes,
dashes and ligatures are folded, whitespace removed, and the result
lowercased. -/
def normalize (s : String) : String :=
  if s = "" then "" else ⟨normListChars s.data⟩

/-- `normalize_text` from tools/lib/utils.py lines 63-80; its body is
character-for-character the same pipeline as `normalize`. -/
def normalize_text (s : String) : String := normalize s

mutual
/-- JSON values as loaded by `json.load`: the structured resume source.
Objects are association lists in insertion order; numeric leaves of the
profile schema are integers.  Arrays and objects carry their own list
spines (`JList`, `JMap`) so that recursion over values is structural. -/
inductive JValue where
  | null
  | bool (b : Bool)
  | num (n : Int)
  | str (s : String)
  | arr (xs : JList)
  | obj (fields : JMap)
inductive JList where
  | nil
  | cons (hd : JValue) (tl : JList)
inductive JMap where
  | nil
  | cons (key : String) (val : JValue) (tl : JMap)
end

/-- The elements of an array spine as an ordinary list. -/
def JList.toList : JList → List JValue
  | .nil => []
  | .cons x tl => x :: tl.toList

/-- Array spine from an ordinary list. -/
def JList.ofList : List JValue → JList
  | [] => .nil
  | x :: xs => .cons x (JList.ofList xs)

/-- Object spine from an ordinary association list. -/
def JMap.ofList : List (String × JValue) → JMap
  | [] => .nil
  | kv :: rest => .cons kv.1 kv.2 (JMap.ofList rest)

/-- JSON array literal helper. -/
def jarr (xs : List JValue) : JValue := JValue.arr (JList.ofList xs)

/-- JSON object literal helper. -/
def jobj (fs : List (String × JValue)) : JValue := JValue.obj (JMap.ofList fs)

/-- Whether an array spine is empty. -/
def JList.isEmpty : JList → Bool
  | .nil => true
  | .cons _ _ => false

/-- Whether an object spine is empty. -/
def JMap.isEmpty : JMap → Bool
  | .nil => true
  | .cons _ _ _ => false

/-- Lookup of a key in an object spine (first match, insertion order). -/
def JMap.find? : JMap → String → Option JValue
  | .nil, _ => none
  | .cons k v tl, key => if k == key then some v else JMap.find? tl key

/-- Python truthiness (`if not val`) on a JSON value. -/
def pyTruthy : JValue → Bool
  | .null => false
  | .bool b => b
  | .num n => n != 0
  | .str s => !(s == "")
  | .arr xs => !xs.isEmpty
  | .obj fs => !fs.isEmpty

/-- Python `enumerate` starting at a given index. -/
def enumFrom {α : Type} : Nat → List α → List (Nat × α)
  | _, [] => []
  | i, x :: xs => (i, x) :: enumFrom (i + 1) xs

mutual
/-- Python `repr` of a JSON value (used by `str` inside containers).
String quoting is modelled without escape handling, which the audited
profile data never needs. -/
def pyRepr : JValue → String
  | .null => "None"
  | .bool b => if b then "True" else "False"
  | .num n => toString n
  | .str s => "\x27" ++ s ++ "\x27"
  | .arr xs => "[" ++ pyReprArr xs ++ "]"
  | .obj fs => "\x7b" ++ pyReprMap fs ++ "\x7d"
/-- Comma-separated `repr` of array elements. -/
def pyReprArr : JList → String
  | .nil => ""
  | .cons x .nil => pyRepr x
  | .cons x tl => pyRepr x ++ ", " ++ pyReprArr tl
/-- Comma-separated `repr` of object entries. -/
def pyReprMap : JMap → String
  | .nil => ""
  | .cons k v .nil => "\x27" ++ k ++ "\x27: " ++ pyRepr v
  | .cons k v tl => "\x27" ++ k ++ "\x27: " ++ pyRepr v ++ ", " ++ pyReprMap tl
end

/-- Python `str` of a JSON value (`str` on a string is the string itself,
containers print via `repr` of their elements). -/
def pyStr : JValue → String
  | .str s => s
  | v => pyRepr v

/-- Python `dict.get(k)` on an object (None when the key is absent; the
sources only call `.get` on objects). -/
def pyGet (v : JValue) (k : String) : Option JValue :=
  match v with
  | .obj fs => fs.find? k
  | _ => none

/-- Python `dict.get(k)` with its `None` default as a `JValue`. -/
def pyGetD (v : JValue) (k : String) : JValue :=
  (pyGet v k).getD JValue.null

/-- `source_data.get('experience', [])` (tools/fidelity_auditor.py line 81):
the experience list of the source, empty when absent.  The sources feed this
straight to `enumerate`, so only list-valued fields occur. -/
def experienceOf (source : JValue) : List JValue :=
  match pyGet source "experience" with
  | some (.arr xs) => xs.toList
  | _ => []

/-- A word token extracted by `extract_geo_text`
(tools/fidelity_auditor.py lines 10-23): text plus coordinates, with the
float coordinates modelled as exact rationals. -/
structure GeoWord where
  text : String
  x0 : ℚ
  top : ℚ
  page : Nat

/-- `"".join(w["text"] for w in target_geo)` (tools/fidelity_auditor.py
line 61). -/
def geoFullText (geo : List GeoWord) : String :=
  String.join (geo.map GeoWord.text)

/-- The report assembled by `audit` (tools/fidelity_auditor.py lines
94-102). -/
structure Report where
  status : String
  integrity_score : Int
  issues : List String
  metrics : List (String × Int)

/-- The one-decimal float formatting of the issue f-strings (`{x:.1f}`),
modelled with round-half-up on exact rationals: the integer below is the
floor of `q * 10 + 1 / 2`, written on the numerator and denominator so that
it evaluates by kernel reduction. -/
def fmtTenths (q : ℚ) : String :=
  let r : Int := Int.fdiv (20 * q.num + (q.den : Int)) (2 * (q.den : Int))
  if r < 0 then
    "-" ++ toString ((-r) / 10) ++ "." ++ toString ((-r) % 10)
  else
    toString (r / 10) ++ "." ++ toString (r % 10)

/-- The `MISSING CONTENT` issue string of tools/fidelity_auditor.py
line 78. -/
def missingIssue (label : String) (v : JValue) (score : ℚ) : String :=
  "MISSING CONTENT [" ++ label ++ "]: \x27" ++ pyStr v ++ "\x27 (Fuzzy: " ++
    fmtTenths score ++ ")"

/-- The `GEOMETRIC DRIFT` issue string of tools/fidelity_auditor.py
line 92. -/
def driftIssue (name : String) (avgTop : ℚ) : String :=
  "GEOMETRIC DRIFT: Name \x27" ++ name ++ "\x27 found at Y=" ++
    fmtTenths avgTop ++ " (Expected < 150)"

mutual
/-- The inner `check_exists(val, label)` of `audit`
(tools/fidelity_auditor.py lines 67-78): falsy values are skipped, lists are
recursed element-wise with index-suffixed labels, and any other value is
compared after normalization, with a fuzzy fallback.  The
`rapidfuzz.fuzz.partial_ratio` scorer is an external library and enters as
the parameter `fuzz` (a score in [0,100]); per source it is applied to the
lowercased raw field value and lowercased raw full text. -/
def check_exists (fuzz : String → String → ℚ) (targetNorm targetFull : String)
    (val : JValue) (label : String) : List String :=
  if pyTruthy val = false then []
  else
    match val with
    | .arr xs => checkExistsArr fuzz targetNorm targetFull xs label 0
    | v =>
      let normVal := normalize (pyStr v)
      if containsSubStr normVal targetNorm then []
      else
        let score := fuzz (lowerStr (pyStr v)) (lowerStr targetFull)
        if score < 85 then [missingIssue label v score] else []
/-- The `for i, item in enumerate(val)` recursion of `check_exists`
(tools/fidelity_auditor.py lines 70-71). -/
def checkExistsArr (fuzz : String → String → ℚ) (targetNorm targetFull : String)
    (xs : JList) (label : String) (i : Nat) : List String :=
  match xs with
  | .nil => []
  | .cons x tl =>
    check_exists fuzz targetNorm targetFull x (label ++ "[" ++ toString i ++ "]")
      ++ checkExistsArr fuzz targetNorm targetFull tl label (i + 1)
end

/-- The `for i, exp in enumerate(source_data.get('experience', []))` loop of
tools/fidelity_auditor.py lines 81-83. -/
def expLoop (fuzz : String → String → ℚ) (targetNorm targetFull : String) :
    List JValue → Nat → List String
  | [], _ => []
  | exp :: rest, i =>
    check_exists fuzz targetNorm targetFull (pyGetD exp "company")
        ("Exp[" ++ toString i ++ "].company")
      ++ check_exists fuzz targetNorm targetFull (pyGetD exp "bullets")
        ("Exp[" ++ toString i ++ "].bullets")
      ++ expLoop fuzz targetNorm targetFull rest (i + 1)

/-- The textual-integrity issues of `audit` (tools/fidelity_auditor.py
lines 66-83): the name field, then each experience entry's company and
bullets. -/
def auditTextIssues (fuzz : String → String → ℚ) (source : JValue)
    (geo : List GeoWord) : List String :=
  let targetFull := geoFullText geo
  let targetNorm := normalize targetFull
  check_exists fuzz targetNorm targetFull (pyGetD source "name") "Name"
    ++ expLoop fuzz targetNorm targetFull (experienceOf source) 0

/-- The geometric-consistency issues of `audit` (tools/fidelity_auditor.py
lines 85-92): words whose normalized text contains the normalized name,
average vertical position compared against 150. -/
def auditGeoIssues (source : JValue) (geo : List GeoWord) : List String :=
  let nameV := pyGetD source "name"
  if pyTruthy nameV = false then []
  else
    let name := pyStr nameV
    let objs := geo.filter
      (fun w => containsSubStr (normalize name) (normalize w.text))
    if objs.isEmpty then []
    else
      let avgTop := (objs.map GeoWord.top).sum / (objs.length : ℚ)
      if avgTop > 150 then [driftIssue name avgTop] else []

/-- `audit(source_json_path, target_pdf_path)` of tools/fidelity_auditor.py
lines 49-103, taking the parsed source JSON and the extracted geometry (file
loading and the path warning are modelled separately). -/
def audit (fuzz : String → String → ℚ) (source : JValue) (geo : List GeoWord) :
    Report :=
  let issues := auditTextIssues fuzz source geo ++ auditGeoIssues source geo
  { status := if issues.isEmpty then "PASS" else "FAIL"
    integrity_score := max 0 (100 - (issues.length : Int) * 5)
    issues := issues
    metrics := [("target_word_count", (geo.length : Int)),
                ("source_experience_count", ((experienceOf source).length : Int))] }

/-- The reserved-character table of `escape_latex`
(tools/lib/utils.py lines 12-24), applied character by character via
`mapping.get(c, c)`. -/
def escMap (c : Char) : List Char :=
  if c = '&' then "\\&".data
  else if c = '%' then "\\%".data
  else if c = '$' then "\\$".data
  else if c = '#' then "\\#".data
  else if c = '_' then "\\_".data
  else if c = Char.ofNat 123 then "\\\x7b".data
  else if c = Char.ofNat 125 then "\\\x7d".data
  else if c = '~' then "\\textasciitilde\x7b\x7d".data
  else if c = '^' then "\\textasciicircum\x7b\x7d".data
  else if c = '\\' then "\\textbackslash\x7b\x7d".data
  else if c = '|' then "\\textbar\x7b\x7d".data
  else [c]

/-- `"".join(mapping.get(c, c) for c in text)` (tools/lib/utils.py
line 27): the single left-to-right character-substitution pass. -/
def escChars : List Char → List Char
  | [] => []
  | c :: rest => escMap c ++ escChars rest

/-- The smart-quote and dash folding of `escape_latex`
(tools/lib/utils.py lines 30-32). -/
def foldTypography (l : List Char) : List Char :=
  applyReplacements
    [("’".data, "\x27".data),
     ("‘".data, "\x27".data),
     ("“".data, "\"".data),
     ("”".data, "\"".data),
     ("—".data, "--".data),
     ("–".data, "-".data)] l

/-- The ligature-suppression pass of `escape_latex`
(tools/lib/utils.py lines 35-43), in dictionary order. -/
def suppressLigatures (l : List Char) : List Char :=
  applyReplacements
    [("ff".data, "f\x7bf\x7d".data),
     ("fi".data, "f\x7bi\x7d".data),
     ("fl".data, "f\x7bl\x7d".data),
     ("ffi".data, "f\x7bf\x7d\x7bi\x7d".data),
     ("ffl".data, "f\x7bf\x7d\x7bl\x7d".data)] l

/-- `escape_latex` from tools/lib/utils.py lines 5-45 on string input:
reserved-character escaping, then quote/dash folding, then ligature
suppression.  (The non-string pass-through branch is modelled by
`escapeLatexJ` below.) -/
def escape_latex (s : String) : String :=
  ⟨suppressLigatures (foldTypography (escChars s.data))⟩

/-- `escape_latex` as the Jinja2 filter value-mapping: non-string input is
returned unchanged (tools/lib/utils.py lines 9-10). -/
def escapeLatexJ : JValue → JValue
  | .str s => .str (escape_latex s)
  | v => v

/-- One item of a Jinja2 template as configured by `run_engine`: literal
markup text, or an interpolation `((( resume...path )))` that names a
dotted path and either applies the `latex_escape` filter or not.  The
environment is built with `autoescape` disabled
(tools/tex_renderer.py line 30), so whether a value is escaped is decided
solely by the template's use of the filter. -/
inductive TmplItem where
  | lit (s : String)
  | interp (path : List String) (filtered : Bool)

/-- Jinja2 attribute resolution of a dotted path against the bound
context. -/
def lookupPath : JValue → List String → Option JValue
  | v, [] => some v
  | v, k :: rest =>
    match pyGet v k with
    | some u => lookupPath u rest
    | none => none

/-- Rendering of a single template item against the context
`resume=data` (`template.render(resume=data)`), with a missing value
rendering as the empty string (Jinja2 `Undefined`). -/
def renderItem (data : JValue) : TmplItem → String
  | .lit s => s
  | .interp path filtered =>
    match lookupPath (jobj [("resume", data)]) path with
    | none => ""
    | some v => if filtered then pyStr (escapeLatexJ v) else pyStr v

/-- Rendering of a template: concatenation of its items' renderings. -/
def render (data : JValue) : List TmplItem → String
  | [] => ""
  | it :: rest => renderItem data it ++ render data rest

/-- The self-healing unwrap of `run_engine`
(tools/tex_renderer.py lines 24-25, tools/importer_engine.py lines 58-59):
`if "resume" in data and len(data) == 1: data = data["resume"]`, for
object payloads. -/
def unwrapResume (data : JValue) : JValue :=
  match data with
  | .obj (JMap.cons k v JMap.nil) => if k = "resume" then v else data
  | _ => data

/-- The data-binding and rendering core of `run_engine`
(tools/tex_renderer.py lines 24-40): unwrap the payload, then render the
template with the payload bound as `resume`. -/
def run_engine_render (data : JValue) (tmpl : List TmplItem) : String :=
  render (unwrapResume data) tmpl

/-- Result of the source-of-truth guard: a raised `PermissionError`, or
permission to proceed together with whether the non-fatal warning was
printed. -/
inductive PathCheck where
  | denied (msg : String)
  | allowed (warned : Bool)
deriving DecidableEq

/-- `validate_master_path` from tools/lib/utils.py lines 47-61, taking the
original argument string together with its resolved form and the resolved
project root (path resolution is the operating system's):
raise `PermissionError` when the resolved path is not under the project
root, otherwise warn exactly when the resolved path does not contain
`data/json`, and proceed. -/
def validate_master_path (root pathStr resolved : String) : PathCheck :=
  if root.data.isPrefixOf resolved.data then
    PathCheck.allowed (!(containsSubStr "data/json" resolved))
  else
    PathCheck.denied
      ("Access denied: Path \x27" ++ pathStr ++ "\x27 is outside the project root.")

/-- The load phase of `run_engine` (tools/tex_renderer.py lines 13-15):
guard first, then open the validated data file.  The returned list records
which files were read, so a denial provably happens before any read. -/
def run_engine_reads (root pathStr resolved : String) :
    Except String (List String) :=
  match validate_master_path root pathStr resolved with
  | .denied msg => .error msg
  | .allowed _ => .ok [resolved]

/-- `parse_docx_total_fidelity` from tools/docx_parser.py lines 52-119:
the whole body sits inside `try ... except Exception as e`, so the stage
returns either the built structural model or an error object.  The body's
interaction with the external python-docx library enters as the already
evaluated `body` (its value, or the message of the exception it raised). -/
def parse_docx_total_fidelity (body : Except String JValue) : JValue :=
  match body with
  | .ok data => data
  | .error e => jobj [("error", JValue.str e)]

/-- `extract_rich_layout` from tools/pdf_parser.py lines 17-73: the
extraction loop sits inside `try ... except Exception as e`, so the stage
returns either the extracted page model or an error object.  The body's
interaction with the external pdfplumber library enters as the already
evaluated `body`. -/
def extract_rich_layout (body : Except String JValue) : JValue :=
  match body with
  | .ok results => results
  | .error e => jobj [("error", JValue.str e)]

/-- The module-level names defined by tools/lib/utils.py
(lines 5, 47, 63, 82). -/
def libUtilsDefinedNames : List String :=
  ["escape_latex", "validate_master_path", "normalize_text", "log_security_event"]

/-- The names tools/pdf_parser.py imports from lib.utils at module load
(line 9: `from lib.utils import sanitize_text`). -/
def pdfParserImportedNames : List String := ["sanitize_text"]

/-- Python `from module import names`: the first requested name the module
does not define raises `ImportError` before any code of the importing
module runs. -/
def fromImport (exports requested : List String) : Except String Unit :=
  match requested.find? (fun n => !(exports.contains n)) with
  | some n => .error ("ImportError: cannot import name \x27" ++ n ++ "\x27")
  | none => .ok ()

/-- Loading tools/pdf_parser.py: its `from lib.utils import sanitize_text`
is executed against the names lib/utils.py actually defines. -/
def pdfParserModuleLoad : Except String Unit :=
  fromImport libUtilsDefinedNames pdfParserImportedNames

mutual
/-- Stated from the amended claim: the labeled string-bearing leaves of a
field value — falsy values contribute nothing, a list contributes the
leaves of its elements under index-suffixed labels, and any other truthy
value is itself a leaf (a nested object is a single leaf compared by its
string form, not recursed). -/
def stringLeaves : JValue → String → List (String × JValue)
  | v, label =>
    if pyTruthy v = false then []
    else
      match v with
      | .arr xs => stringLeavesArr xs label 0
      | v => [(label, v)]
/-- The leaves of a list's elements, labels suffixed with their indices. -/
def stringLeavesArr : JList → String → Nat → List (String × JValue)
  | .nil, _, _ => []
  | .cons x tl, label, i =>
    stringLeaves x (label ++ "[" ++ toString i ++ "]")
      ++ stringLeavesArr tl label (i + 1)
end

/-- Stated from the amended claim: a leaf yields a `MISSING CONTENT` issue
exactly when its normalized value is not a substring of the normalized full
text and the fuzzy score of its lowercased raw value against the lowercased
raw full text is below 85. -/
def missingFilter (fuzz : String → String → ℚ) (targetNorm targetFull : String)
    (p : String × JValue) : Option String :=
  let normVal := normalize (pyStr p.2)
  if containsSubStr normVal targetNorm then none
  else
    let score := fuzz (lowerStr (pyStr p.2)) (lowerStr targetFull)
    if score < 85 then some (missingIssue p.1 p.2 score) else none

/-- Stated from the amended claim: the issues a checked field should
produce — its labeled string leaves, filtered by the missing-content
condition. -/
def claimedCheck (fuzz : String → String → ℚ) (targetNorm targetFull : String)
    (v : JValue) (label : String) : List String :=
  (stringLeaves v label).filterMap (missingFilter fuzz targetNorm targetFull)

/-- Stated from the amended claim: the complete list of textual issues the
auditor should report — the name field, then, for each experience entry in
order, its company and its bullets; no other field (in particular no custom
section) is checked. -/
def claimedTextIssues (fuzz : String → String → ℚ) (source : JValue)
    (geo : List GeoWord) : List String :=
  let targetFull := geoFullText geo
  let targetNorm := normalize targetFull
  claimedCheck fuzz targetNorm targetFull (pyGetD source "name") "Name"
    ++ (enumFrom 0 (experienceOf source)).flatMap
      (fun p =>
        claimedCheck fuzz targetNorm targetFull (pyGetD p.2 "company")
            ("Exp[" ++ toString p.1 ++ "].company")
          ++ claimedCheck fuzz targetNorm targetFull (pyGetD p.2 "bullets")
            ("Exp[" ++ toString p.1 ++ "].bullets"))

/-- Whether an issue string is a `GEOMETRIC DRIFT` issue. -/
def isDriftIssue (s : String) : Bool :=
  "GEOMETRIC DRIFT".data.isPrefixOf s.data

/-- A degenerate fuzzy scorer (constant 0: no near match anywhere), used to
instantiate counterexamples. -/
def fuzzZero : String → String → ℚ := fun _ _ => 0

/-- Counterexample source: name plus a custom section whose content does
not occur in the rendered text. -/
def srcCustomMissing : JValue :=
  jobj [("name", JValue.str "jane"),
        ("custom_sections",
          jarr [jobj [("title", JValue.str "X"), ("content", JValue.str "zzz")]])]

/-- Counterexample geometry: the name is present in the concatenated text
(split across two word tokens), the custom-section content is absent. -/
def geoCustomMissing : List GeoWord := [⟨"ja", 1, 10, 1⟩, ⟨"ne", 2, 10, 1⟩]

/-- Witness source for the geometric-drift check: just a name. -/
def srcDrift : JValue := jobj [("name", JValue.str "jane")]

/-- Witness geometry: the name sits at vertical position 200. -/
def geoDrift : List GeoWord := [⟨"jane", 5, 200, 1⟩]

/-- Witness payload for the renderer theorems. -/
def dataAmp : JValue := jobj [("name", JValue.str "A & B")]

/-- Witness object payload (two keys, so the self-healing unwrap leaves it
unchanged) for the unwrap theorem. -/
def fsPlain : JMap :=
  JMap.ofList [("name", JValue.str "Jane"), ("x", JValue.bool true)]

/-- Whether a replacement chain removes every occurrence of the character
`a`: some step replaces the single-character pattern `a` by a replacement
free of `a`, and no later step's replacement reintroduces `a`. -/
def removesChar (a : Char) : List (List Char × List Char) → Bool
  | [] => false
  | p :: rest =>
    (p.1 == [a] && p.2.all (fun c => !(c == a))
        && rest.all (fun q => q.2.all (fun c => !(c == a))))
      || removesChar a rest

/-- Claim C2 (counterexample): the metrics object of an audit report has no
key `source_entity_count` — the second key is `source_experience_count`. -/
theorem audit_metrics_key_cex :
    "source_entity_count" ∉ (audit fuzzZero (jobj []) []).metrics.map Prod.fst ∧
    (audit fuzzZero (jobj []) []).metrics.map Prod.fst
      = ["target_word_count", "source_experience_count"] :=
  ⟨by decide, by decide⟩

/-- Claim C2 (amended): for every audit invocation the report status is
`PASS` iff the issue list is empty and `FAIL` iff it is not, the integrity
score equals `max 0 (100 - 5 * number of issues)` and so is an integer in
`[0, 100]`, and the metrics keys are `target_word_count` and
`source_experience_count`. -/
theorem audit_report_shape (fuzz : String → String → ℚ) (source : JValue)
    (geo : List GeoWord) :
    ((audit fuzz source geo).status = "PASS" ↔ (audit fuzz source geo).issues = []) ∧
    ((audit fuzz source geo).status = "FAIL" ↔ (audit fuzz source geo).issues ≠ []) ∧
    (audit fuzz source geo).integrity_score
      = max 0 (100 - 5 * ((audit fuzz source geo).issues.length : Int)) ∧
    0 ≤ (audit fuzz source geo).integrity_score ∧
    (audit fuzz source geo).integrity_score ≤ 100 ∧
    (audit fuzz source geo).metrics.map Prod.fst
      = ["target_word_count", "source_experience_count"] := by
  have hs : (audit fuzz source geo).status
      = (if (audit fuzz source geo).issues.isEmpty then "PASS" else "FAIL") := rfl
  have hi : (audit fuzz source geo).integrity_score
      = max 0 (100 - ((audit fuzz source geo).issues.length : Int) * 5) := rfl
  refine ⟨?_, ?_, ?_, ?_, ?_, rfl⟩
  · rw [hs]
    cases h : (audit fuzz source geo).issues.isEmpty with
    | true => simp_all [List.isEmpty_iff]
    | false => simp_all [List.isEmpty_iff]
  · rw [hs]
    cases h : (audit fuzz source geo).issues.isEmpty with
    | true => simp_all [List.isEmpty_iff]
    | false => simp_all [List.isEmpty_iff]
  · rw [hi, Int.mul_comm]
  · rw [hi]; exact le_max_left 0 _
  · rw [hi]
    exact max_le (by norm_num) (by omega)

/-- Claim C4: a source path whose resolved form is outside the project root
is rejected by the source-of-truth guard with a `PermissionError` before
any file is read, while a resolved path inside the root merely sets the
non-fatal warning flag when it is outside the canonical `data/json`
directory, and the load proceeds normally. -/
theorem validate_master_path_guard (root pathStr resolved : String) :
    (root.data.isPrefixOf resolved.data = false →
      validate_master_path root pathStr resolved
        = PathCheck.denied
          ("Access denied: Path \x27" ++ pathStr ++ "\x27 is outside the project root.") ∧
      run_engine_reads root pathStr resolved
        = Except.error
          ("Access denied: Path \x27" ++ pathStr ++ "\x27 is outside the project root.")) ∧
    (root.data.isPrefixOf resolved.data = true →
      validate_master_path root pathStr resolved
        = PathCheck.allowed (!(containsSubStr "data/json" resolved)) ∧
      run_engine_reads root pathStr resolved = Except.ok [resolved]) := by
  constructor
  · intro h
    constructor <;> simp [validate_master_path, run_engine_reads, h]
  · intro h
    constructor <;> simp [validate_master_path, run_engine_reads, h]

/-- Claim C4 (witness): `../../etc/passwd` resolving to `/etc/passwd` is
denied with no file read, and an in-root path outside `data/json` proceeds
with the warning flag set. -/
theorem validate_master_path_guard_witness :
    ("/app/ari".data.isPrefixOf "/etc/passwd".data = false ∧
      validate_master_path "/app/ari" "../../etc/passwd" "/etc/passwd"
        = PathCheck.denied
          ("Access denied: Path \x27" ++ "../../etc/passwd" ++ "\x27 is outside the project root.") ∧
      run_engine_reads "/app/ari" "../../etc/passwd" "/etc/passwd"
        = Except.error
          ("Access denied: Path \x27" ++ "../../etc/passwd" ++ "\x27 is outside the project root.")) ∧
    ("/app/ari".data.isPrefixOf "/app/ari/tmp/x.json".data = true ∧
      validate_master_path "/app/ari" "x.json" "/app/ari/tmp/x.json"
        = PathCheck.allowed true ∧
      run_engine_reads "/app/ari" "x.json" "/app/ari/tmp/x.json"
        = Except.ok ["/app/ari/tmp/x.json"]) := by
  refine ⟨⟨by decide, (validate_master_path_guard "/app/ari" "../../etc/passwd" "/etc/passwd").1 (by decide)⟩,
    ⟨by decide, ?_, ((validate_master_path_guard "/app/ari" "x.json" "/app/ari/tmp/x.json").2 (by decide)).2⟩⟩
  have h := ((validate_master_path_guard "/app/ari" "x.json" "/app/ari/tmp/x.json").2 (by decide)).1
  rw [h]; decide

/-- Claim C6 (counterexample): the markup escaper is not idempotent —
re-escaping `escape_latex "&" = "\&"` expands its backslash into
`\textbackslash` markup. -/
theorem escape_latex_not_idempotent_cex :
    escape_latex (escape_latex "&") ≠ escape_latex "&" ∧
    escape_latex "&" = "\\&" ∧
    escape_latex (escape_latex "&") = "\\textbackslash\x7b\x7d\\&" :=
  ⟨by decide, by decide, by decide⟩

/-- Claim C6 (amended): `escape_latex` applies the reserved-character
escaping pass before ligature suppression, and the order matters — running
the two passes in the opposite order on `"fi"` gives a different result,
because the braces introduced by ligature suppression would themselves be
escaped. -/
theorem escape_latex_order_sensitive :
    (∀ s : String,
      escape_latex s = ⟨suppressLigatures (foldTypography (escChars s.data))⟩) ∧
    suppressLigatures (escChars "fi".data) ≠ escChars (suppressLigatures "fi".data) :=
  ⟨fun _ => rfl, by decide⟩

/-- Rendering distributes over template concatenation. -/
theorem render_append (data : JValue) (l₁ l₂ : List TmplItem) :
    render data (l₁ ++ l₂) = render data l₁ ++ render data l₂ := by
  induction l₁ with
  | nil => simp [render]
  | cons it rest ih => simp [render, ih, String.append_assoc]

/-- Claim C7 (counterexample): with the `latex_escape` filter omitted, the
renderer emits a user-supplied reserved character `&` into the output raw
and unescaped. -/
theorem run_engine_unescaped_output_cex :
    run_engine_render dataAmp [TmplItem.interp ["resume", "name"] false] = "A & B" ∧
    containsSubStr "&" "A & B" = true ∧
    containsSubStr "\\&" "A & B" = false :=
  ⟨by decide, by decide, by decide⟩

/-- Claim C7 (amended): escaping of interpolated text is opt-in, not
automatic — an interpolation with the `latex_escape` filter contributes
`escape_latex` of the value to the output, and an interpolation without the
filter contributes the raw value verbatim. -/
theorem run_engine_escapes_iff_filtered (data : JValue) (pre post : List TmplItem)
    (path : List String) (sv : String)
    (hv : lookupPath (jobj [("resume", data)]) path = some (JValue.str sv)) :
    render data (pre ++ TmplItem.interp path true :: post)
      = render data pre ++ (escape_latex sv ++ render data post) ∧
    render data (pre ++ TmplItem.interp path false :: post)
      = render data pre ++ (sv ++ render data post) := by
  constructor <;>
    · rw [render_append]
      simp [render, renderItem, hv, escapeLatexJ, pyStr]

/-- Claim C7 (witness): the filtered and unfiltered interpolations of a
concrete name value. -/
theorem run_engine_escapes_iff_filtered_witness :
    lookupPath (jobj [("resume", dataAmp)]) ["resume", "name"]
      = some (JValue.str "A & B") ∧
    (render dataAmp ([] ++ TmplItem.interp ["resume", "name"] true :: [])
        = render dataAmp [] ++ (escape_latex "A & B" ++ render dataAmp []) ∧
      render dataAmp ([] ++ TmplItem.interp ["resume", "name"] false :: [])
        = render dataAmp [] ++ ("A & B" ++ render dataAmp [])) :=
  ⟨rfl, run_engine_escapes_iff_filtered dataAmp [] [] ["resume", "name"] "A & B" rfl⟩

/-- Claim C8 (counterexample): unwrapping is not transparent for every
payload — when the payload is itself a single-key `resume` object, the
wrapper and the payload render differently, because rendering the payload
directly unwraps a second time. -/
theorem unwrap_resume_cex :
    run_engine_render (jobj [("resume", jobj [("resume", jobj [])])])
        [TmplItem.interp ["resume", "resume"] false]
      ≠ run_engine_render (jobj [("resume", jobj [])])
        [TmplItem.interp ["resume", "resume"] false] ∧
    run_engine_render (jobj [("resume", jobj [("resume", jobj [])])])
        [TmplItem.interp ["resume", "resume"] false] = "\x7b\x7d" ∧
    run_engine_render (jobj [("resume", jobj [])])
        [TmplItem.interp ["resume", "resume"] false] = "" :=
  ⟨by decide, by decide, by decide⟩

/-- Claim C8 (amended): for every object payload that the self-healing rule
leaves unchanged (i.e. not itself a single-key `resume` object), rendering
the single-key wrapper `resume: payload` is identical to rendering the
payload directly. -/
theorem unwrap_resume_transparent (fs : JMap) (tmpl : List TmplItem)
    (h : unwrapResume (JValue.obj fs) = JValue.obj fs) :
    run_engine_render (jobj [("resume", JValue.obj fs)]) tmpl
      = run_engine_render (JValue.obj fs) tmpl := by
  unfold run_engine_render
  rw [h]
  rfl

/-- Claim C8 (witness): a two-key payload renders identically wrapped and
unwrapped. -/
theorem unwrap_resume_transparent_witness :
    unwrapResume (JValue.obj fsPlain) = JValue.obj fsPlain ∧
    run_engine_render (jobj [("resume", JValue.obj fsPlain)])
        [TmplItem.interp ["resume", "name"] false]
      = run_engine_render (JValue.obj fsPlain)
        [TmplItem.interp ["resume", "name"] false] :=
  ⟨rfl, unwrap_resume_transparent fsPlain [TmplItem.interp ["resume", "name"] false] rfl⟩

/-- Claim C9: the structural-extraction and geometric-extraction stages are
total functions of their (possibly failing) library interaction — an
internal failure with message `e` yields the structured result
`error: e`, and a success passes the built model through; no exception
crosses the stage boundary. -/
theorem extraction_stages_wrap_errors (bodyDocx bodyPdf : Except String JValue) :
    (∀ e, bodyDocx = Except.error e →
      parse_docx_total_fidelity bodyDocx = jobj [("error", JValue.str e)]) ∧
    (∀ d, bodyDocx = Except.ok d → parse_docx_total_fidelity bodyDocx = d) ∧
    (∀ e, bodyPdf = Except.error e →
      extract_rich_layout bodyPdf = jobj [("error", JValue.str e)]) ∧
    (∀ d, bodyPdf = Except.ok d → extract_rich_layout bodyPdf = d) := by
  refine ⟨?_, ?_, ?_, ?_⟩ <;> rintro x rfl <;> rfl

/-- Claim C9 (witness): concrete failing bodies produce the structured
error objects. -/
theorem extraction_stages_wrap_errors_witness :
    parse_docx_total_fidelity (Except.error "Package not found")
      = jobj [("error", JValue.str "Package not found")] ∧
    extract_rich_layout (Except.error "No such file or directory")
      = jobj [("error", JValue.str "No such file or directory")] :=
  ⟨(extraction_stages_wrap_errors (Except.error "Package not found")
      (Except.error "No such file or directory")).1 _ rfl,
    (extraction_stages_wrap_errors (Except.error "Package not found")
      (Except.error "No such file or directory")).2.2.1 _ rfl⟩

mutual
/-- The source recursion `check_exists` produces exactly the issues that
the leaves-then-filter reading of the spec prescribes. -/
theorem check_exists_eq_claimed (fuzz : String → String → ℚ)
    (tN tF : String) (v : JValue) (label : String) :
    check_exists fuzz tN tF v label = claimedCheck fuzz tN tF v label := by
  unfold check_exists claimedCheck stringLeaves
  by_cases hv : pyTruthy v = false
  · simp [hv, List.filterMap]
  · rw [if_neg hv, if_neg hv]
    cases v with
    | arr xs => exact check_exists_arr_eq_claimed fuzz tN tF xs label 0
    | null =>
      simp only [List.filterMap, missingFilter]
      split_ifs <;> rfl
    | bool b =>
      simp only [List.filterMap, missingFilter]
      split_ifs <;> rfl
    | num n =>
      simp only [List.filterMap, missingFilter]
      split_ifs <;> rfl
    | str s =>
      simp only [List.filterMap, missingFilter]
      split_ifs <;> rfl
    | obj fs =>
      simp only [List.filterMap, missingFilter]
      split_ifs <;> rfl
/-- List case of `check_exists_eq_claimed`. -/
theorem check_exists_arr_eq_claimed (fuzz : String → String → ℚ)
    (tN tF : String) (xs : JList) (label : String) (i : Nat) :
    checkExistsArr fuzz tN tF xs label i
      = (stringLeavesArr xs label i).filterMap (missingFilter fuzz tN tF) := by
  cases xs with
  | nil => simp [checkExistsArr, stringLeavesArr]
  | cons x tl =>
    rw [checkExistsArr, stringLeavesArr, List.filterMap_append,
      check_exists_eq_claimed fuzz tN tF x (label ++ "[" ++ toString i ++ "]"),
      check_exists_arr_eq_claimed fuzz tN tF tl label (i + 1)]
    rfl
end

/-- The experience loop of the auditor produces exactly the issues that the
enumerate-then-check reading of the spec prescribes. -/
theorem expLoop_eq_claimed (fuzz : String → String → ℚ) (tN tF : String)
    (xs : List JValue) : ∀ i,
    expLoop fuzz tN tF xs i
      = (enumFrom i xs).flatMap
        (fun p =>
          claimedCheck fuzz tN tF (pyGetD p.2 "company")
              ("Exp[" ++ toString p.1 ++ "].company")
            ++ claimedCheck fuzz tN tF (pyGetD p.2 "bullets")
              ("Exp[" ++ toString p.1 ++ "].bullets")) := by
  induction xs with
  | nil => intro i; simp [expLoop, enumFrom]
  | cons exp rest ih =>
    intro i
    simp [expLoop, enumFrom, ih (i + 1), check_exists_eq_claimed,
      List.append_assoc]

/-- Claim C1 (counterexample): a source whose custom section content `zzz`
is entirely absent from the extracted text (and has fuzzy score 0 < 85)
still audits with an empty issue list — custom sections are never
checked. -/
theorem audit_skips_custom_sections_cex :
    (audit fuzzZero srcCustomMissing geoCustomMissing).issues = [] ∧
    pyGetD srcCustomMissing "custom_sections"
      = jarr [jobj [("title", JValue.str "X"), ("content", JValue.str "zzz")]] ∧
    containsSubStr (normalize (pyStr (JValue.str "zzz")))
      (normalize (geoFullText geoCustomMissing)) = false ∧
    fuzzZero (lowerStr (pyStr (JValue.str "zzz")))
      (lowerStr (geoFullText geoCustomMissing)) < 85 :=
  ⟨by decide, rfl, by decide, by norm_num [fuzzZero]⟩

/-- Claim C1 (amended): the auditor checks exactly the name field and, for
each experience entry in order, its company and bullets fields — recursing
element-wise through lists with index-suffixed path labels, skipping falsy
values, and treating any other value (including a nested object) as a
single leaf compared by its string form; a leaf is reported as
`MISSING CONTENT` with its path label iff its normalized value is not a
substring of the normalized full text and the fuzzy ratio of its lowercased
raw value against the lowercased raw full text is below 85.  No other field
(in particular no custom section) is checked. -/
theorem audit_issues_characterization (fuzz : String → String → ℚ)
    (source : JValue) (geo : List GeoWord) :
    (audit fuzz source geo).issues
      = claimedTextIssues fuzz source geo ++ auditGeoIssues source geo := by
  have h : auditTextIssues fuzz source geo = claimedTextIssues fuzz source geo := by
    simp only [auditTextIssues, claimedTextIssues, check_exists_eq_claimed,
      expLoop_eq_claimed]
  show auditTextIssues fuzz source geo ++ auditGeoIssues source geo = _
  rw [h]

/-- Prefix testing fails on a head mismatch. -/
theorem isPrefixOf_cons_ne (a b : Char) (l1 l2 : List Char) (h : ¬ a = b) :
    (a :: l1).isPrefixOf (b :: l2) = false := by
  simp [List.isPrefixOf, h]

/-- A `MISSING CONTENT` issue never has the `GEOMETRIC DRIFT` prefix. -/
theorem isDrift_missingIssue_false (label : String) (v : JValue) (score : ℚ) :
    isDriftIssue (missingIssue label v score) = false := by
  have h1 : "GEOMETRIC DRIFT".data = 'G' :: "EOMETRIC DRIFT".data := rfl
  have h2 : "MISSING CONTENT [".data = 'M' :: "ISSING CONTENT [".data := rfl
  unfold isDriftIssue missingIssue
  simp only [String.data_append, List.append_assoc, h1, h2, List.cons_append]
  exact isPrefixOf_cons_ne _ _ _ _ (by decide)

/-- A list is always a `isPrefixOf` witness of itself extended on the
right. -/
theorem self_isPrefixOf_append (l t : List Char) :
    l.isPrefixOf (l ++ t) = true := by
  induction l with
  | nil => simp [List.isPrefixOf]
  | cons a l ih => simp [List.isPrefixOf, ih]

/-- A `GEOMETRIC DRIFT` issue carries the `GEOMETRIC DRIFT` prefix. -/
theorem isDrift_driftIssue (name : String) (avgTop : ℚ) :
    isDriftIssue (driftIssue name avgTop) = true := by
  have h1 : "GEOMETRIC DRIFT: Name \x27".data
      = "GEOMETRIC DRIFT".data ++ ": Name \x27".data := rfl
  unfold isDriftIssue driftIssue
  simp only [String.data_append, h1, List.append_assoc]
  exact self_isPrefixOf_append _ _

/-- The fuzzy filter only ever emits `MISSING CONTENT` issues. -/
theorem missingFilter_some (fuzz : String → String → ℚ) (tN tF : String)
    (p : String × JValue) (s : String)
    (h : missingFilter fuzz tN tF p = some s) :
    ∃ q, s = missingIssue p.1 p.2 q := by
  simp only [missingFilter] at h
  split at h
  · exact absurd h (by simp)
  · split at h
    · exact ⟨_, (Option.some_injective _ h).symm⟩
    · exact absurd h (by simp)

/-- Every textual issue of the auditor is a `MISSING CONTENT` issue, hence
never a `GEOMETRIC DRIFT` issue. -/
theorem not_drift_of_mem_auditTextIssues (fuzz : String → String → ℚ)
    (source : JValue) (geo : List GeoWord) (s : String)
    (h : s ∈ auditTextIssues fuzz source geo) : isDriftIssue s = false := by
  have hc : auditTextIssues fuzz source geo = claimedTextIssues fuzz source geo := by
    simp only [auditTextIssues, claimedTextIssues, check_exists_eq_claimed,
      expLoop_eq_claimed]
  rw [hc] at h
  simp only [claimedTextIssues] at h
  rw [List.mem_append] at h
  have key : ∀ (v : JValue) (label : String),
      s ∈ claimedCheck fuzz (normalize (geoFullText geo)) (geoFullText geo) v label →
      isDriftIssue s = false := by
    intro v label hmem
    unfold claimedCheck at hmem
    rw [List.mem_filterMap] at hmem
    obtain ⟨p, _, hp⟩ := hmem
    obtain ⟨q, rfl⟩ := missingFilter_some _ _ _ _ _ hp
    exact isDrift_missingIssue_false _ _ _
  rcases h with h | h
  · exact key _ _ h
  · rw [List.mem_flatMap] at h
    obtain ⟨p, _, hp⟩ := h
    rw [List.mem_append] at hp
    rcases hp with hp | hp
    · exact key _ _ hp
    · exact key _ _ hp

/-- The geometric block of the auditor under a non-empty string name. -/
theorem auditGeoIssues_eq (source : JValue) (geo : List GeoWord) (name : String)
    (hname : pyGetD source "name" = JValue.str name) (hne : name ≠ "") :
    auditGeoIssues source geo
      = (if (geo.filter
            (fun w => containsSubStr (normalize name) (normalize w.text))).isEmpty
          then []
          else
            if ((geo.filter
                  (fun w => containsSubStr (normalize name) (normalize w.text))).map
                    GeoWord.top).sum
                / ((geo.filter
                    (fun w => containsSubStr (normalize name) (normalize w.text))).length : ℚ)
                > 150
            then
              [driftIssue name
                (((geo.filter
                    (fun w => containsSubStr (normalize name) (normalize w.text))).map
                      GeoWord.top).sum
                  / ((geo.filter
                      (fun w => containsSubStr (normalize name) (normalize w.text))).length : ℚ))]
            else []) := by
  have ht : pyTruthy (JValue.str name) = true := by
    simp [pyTruthy, hne]
  unfold auditGeoIssues
  rw [hname]
  simp only [ht, pyStr]
  simp

/-- Claim C3: for a source with a non-empty name, the audit report contains
a `GEOMETRIC DRIFT` issue iff some extracted entry's normalized text
contains the normalized name and the average vertical position of all such
entries exceeds 150. -/
theorem audit_geometric_drift_iff (fuzz : String → String → ℚ)
    (source : JValue) (geo : List GeoWord) (name : String)
    (hname : pyGetD source "name" = JValue.str name) (hne : name ≠ "") :
    (∃ s ∈ (audit fuzz source geo).issues, isDriftIssue s = true) ↔
      (geo.filter (fun w => containsSubStr (normalize name) (normalize w.text)) ≠ [] ∧
        ((geo.filter
            (fun w => containsSubStr (normalize name) (normalize w.text))).map
              GeoWord.top).sum
          / ((geo.filter
              (fun w => containsSubStr (normalize name) (normalize w.text))).length : ℚ)
          > 150) := by
  have hissues : (audit fuzz source geo).issues
      = auditTextIssues fuzz source geo ++ auditGeoIssues source geo := rfl
  have hgeo := auditGeoIssues_eq source geo name hname hne
  set objs := geo.filter
    (fun w => containsSubStr (normalize name) (normalize w.text)) with hobjs
  set avg := ((objs.map GeoWord.top).sum / (objs.length : ℚ)) with havgdef
  constructor
  · rintro ⟨s, hs, hd⟩
    rw [hissues, List.mem_append] at hs
    rcases hs with h | h
    · rw [not_drift_of_mem_auditTextIssues fuzz source geo s h] at hd
      exact absurd hd (by simp)
    · rw [hgeo] at h
      by_cases he : objs.isEmpty
      · rw [if_pos he] at h
        exact absurd h (by simp)
      · rw [if_neg he] at h
        refine ⟨by simpa [List.isEmpty_iff] using he, ?_⟩
        by_cases havg : avg > 150
        · exact havg
        · rw [if_neg havg] at h
          exact absurd h (by simp)
  · rintro ⟨hne2, havg⟩
    have he : ¬ objs.isEmpty = true := by
      simpa [List.isEmpty_iff] using hne2
    refine ⟨driftIssue name avg, ?_, isDrift_driftIssue name avg⟩
    rw [hissues, List.mem_append]
    right
    rw [hgeo, if_neg he, if_pos havg]
    exact List.mem_singleton.mpr rfl

/-- Claim C3 (witness): a name sitting at vertical position 200 triggers
the drift issue. -/
theorem audit_geometric_drift_iff_witness :
    pyGetD srcDrift "name" = JValue.str "jane" ∧ "jane" ≠ "" ∧
    ((∃ s ∈ (audit fuzzZero srcDrift geoDrift).issues, isDriftIssue s = true) ↔
      (geoDrift.filter
          (fun w => containsSubStr (normalize "jane") (normalize w.text)) ≠ [] ∧
        ((geoDrift.filter
            (fun w => containsSubStr (normalize "jane") (normalize w.text))).map
              GeoWord.top).sum
          / ((geoDrift.filter
              (fun w => containsSubStr (normalize "jane") (normalize w.text))).length : ℚ)
          > 150)) :=
  ⟨rfl, by decide,
    audit_geometric_drift_iff fuzzZero srcDrift geoDrift "jane" rfl (by decide)⟩

/-- A replacement pass leaves a list without any occurrence of the pattern
unchanged. -/
theorem replaceFuel_eq_self (pat rep : List Char) :
    ∀ (fuel : Nat) (s : List Char), containsSub pat s = false →
      replaceFuel pat rep fuel s = s := by
  intro fuel
  induction fuel with
  | zero =>
    intro s _
    cases s <;> rfl
  | succ f ih =>
    intro s h
    cases s with
    | nil => rfl
    | cons c rest =>
      rw [containsSub, Bool.or_eq_false_iff] at h
      rw [replaceFuel, if_neg (by simp [h.1]), ih rest h.2]

/-- `str.replace` is the identity when the pattern does not occur. -/
theorem replaceL_eq_self (pat rep s : List Char)
    (h : containsSub pat s = false) : replaceL pat rep s = s :=
  replaceFuel_eq_self pat rep s.length s h

/-- A replacement chain leaves a list without any pattern occurrence
unchanged. -/
theorem applyReplacements_eq_self (ps : List (List Char × List Char))
    (l : List Char) (h : ∀ p ∈ ps, containsSub p.1 l = false) :
    applyReplacements ps l = l := by
  induction ps with
  | nil => rfl
  | cons p rest ih =>
    show applyReplacements rest (replaceL p.1 p.2 l) = l
    rw [replaceL_eq_self p.1 p.2 l (h p (List.mem_cons_self p rest))]
    exact ih (fun q hq => h q (List.mem_cons_of_mem p hq))

/-- Characters of a replacement result come from the input or from the
replacement string. -/
theorem mem_replaceFuel (pat rep : List Char) :
    ∀ (fuel : Nat) (s : List Char) (x : Char),
      x ∈ replaceFuel pat rep fuel s → x ∈ s ∨ x ∈ rep := by
  intro fuel
  induction fuel with
  | zero =>
    intro s x h
    cases s with
    | nil => exact absurd h (by simp [replaceFuel])
    | cons c rest => exact Or.inl h
  | succ f ih =>
    intro s x h
    cases s with
    | nil => exact absurd h (by simp [replaceFuel])
    | cons c rest =>
      rw [replaceFuel] at h
      split at h
      · rcases List.mem_append.mp h with hx | hx
        · exact Or.inr hx
        · rcases ih _ x hx with hx | hx
          · exact Or.inl (List.mem_cons_of_mem c (List.drop_subset _ rest hx))
          · exact Or.inr hx
      · rcases List.mem_cons.mp h with hx | hx
        · exact Or.inl (hx ▸ List.mem_cons_self c rest)
        · rcases ih rest x hx with hx | hx
          · exact Or.inl (List.mem_cons_of_mem c hx)
          · exact Or.inr hx

/-- A character absent from the input and from every replacement string of
a chain is absent from the chain's result. -/
theorem not_mem_applyReplacements (ps : List (List Char × List Char))
    (l : List Char) (a : Char) (hl : a ∉ l) (hps : ∀ p ∈ ps, a ∉ p.2) :
    a ∉ applyReplacements ps l := by
  induction ps generalizing l with
  | nil => exact hl
  | cons p rest ih =>
    show a ∉ applyReplacements rest (replaceL p.1 p.2 l)
    refine ih (replaceL p.1 p.2 l) ?_ (fun q hq => hps q (List.mem_cons_of_mem p hq))
    intro hmem
    rcases mem_replaceFuel p.1 p.2 l.length l a hmem with h | h
    · exact hl h
    · exact hps p (List.mem_cons_self p rest) h

/-- Replacing the single-character pattern `a` by an `a`-free replacement
removes every occurrence of `a`. -/
theorem not_mem_replaceFuel_single (a : Char) (rep : List Char)
    (hrep : a ∉ rep) :
    ∀ (fuel : Nat) (s : List Char), s.length ≤ fuel →
      a ∉ replaceFuel [a] rep fuel s := by
  intro fuel
  induction fuel with
  | zero =>
    intro s hs
    rw [List.length_eq_zero.mp (Nat.le_zero.mp hs)]
    simp [replaceFuel]
  | succ f ih =>
    intro s hs
    cases s with
    | nil => simp [replaceFuel]
    | cons c rest =>
      rw [replaceFuel]
      by_cases hac : a = c
      · rw [if_pos (by simp [List.isPrefixOf, hac])]
        intro hmem
        rcases List.mem_append.mp hmem with h | h
        · exact hrep h
        · have hlen : (List.drop ([a].length - 1) rest).length ≤ f := by
            simpa using Nat.le_of_succ_le_succ (by simpa using hs)
          exact ih _ hlen h
      · rw [if_neg (by simp [List.isPrefixOf]; intro h; exact hac h)]
        intro hmem
        rcases List.mem_cons.mp hmem with h | h
        · exact hac h
        · exact ih rest (by simpa using Nat.le_of_succ_le_succ hs) h

/-- A character list satisfying `List.all (fun c => !(c == a))` does not
contain `a`. -/
theorem not_mem_of_all_ne (a : Char) (l : List Char)
    (h : l.all (fun c => !(c == a)) = true) : a ∉ l := by
  intro hm
  have := List.all_eq_true.mp h a hm
  simp at this

/-- A chain that removes a character produces an `a`-free result on every
input. -/
theorem not_mem_applyReplacements_of_removes (a : Char)
    (ps : List (List Char × List Char)) (h : removesChar a ps = true) :
    ∀ l : List Char, a ∉ applyReplacements ps l := by
  induction ps with
  | nil => exact absurd h (by simp [removesChar])
  | cons p rest ih =>
    rw [removesChar, Bool.or_eq_true] at h
    intro l
    rcases h with h | h
    · rw [Bool.and_eq_true, Bool.and_eq_true] at h
      obtain ⟨⟨hpat, hrep⟩, hrest⟩ := h
      show a ∉ applyReplacements rest (replaceL p.1 p.2 l)
      refine not_mem_applyReplacements rest _ a ?_ ?_
      · rw [show p.1 = [a] from by simpa using hpat]
        exact not_mem_replaceFuel_single a p.2 (not_mem_of_all_ne a p.2 hrep)
          l.length l (Nat.le_refl _)
      · intro q hq
        exact not_mem_of_all_ne a q.2 (List.all_eq_true.mp hrest q hq)
    · exact ih h _

/-- `lowerChar` either fixes its argument or maps a table key to its
lowercase value. -/
theorem lowerChar_cases (c : Char) :
    lowerChar c = c ∨
      ∃ p ∈ asciiLowerTable, p.1 = c ∧ lowerChar c = p.2 := by
  unfold lowerChar
  cases h : asciiLowerTable.find? (fun p => p.1 == c) with
  | none => exact Or.inl rfl
  | some p =>
    refine Or.inr ⟨p, List.mem_of_find?_eq_some h, ?_, rfl⟩
    simpa using List.find?_some h

/-- `lowerChar` is idempotent. -/
theorem lowerChar_idem (c : Char) : lowerChar (lowerChar c) = lowerChar c := by
  rcases lowerChar_cases c with h | ⟨p, hmem, _, hp⟩
  · rw [h, h]
  · rw [hp]
    fin_cases hmem <;> decide

/-- `lowerChar` does not change whether a character is whitespace. -/
theorem isPySpace_lowerChar (c : Char) :
    isPySpace (lowerChar c) = isPySpace c := by
  rcases lowerChar_cases c with h | ⟨p, hmem, hc, hp⟩
  · rw [h]
  · rw [hp]
    fin_cases hmem <;> (cases hc; decide)

/-- A character outside the lowercase column of the case table can only be
the image of itself under `lowerChar`. -/
theorem eq_of_lowerChar_eq (c a : Char)
    (ha : asciiLowerTable.all (fun p => !(p.2 == a)) = true)
    (h : lowerChar c = a) : c = a := by
  rcases lowerChar_cases c with h1 | ⟨p, hmem, _, hp⟩
  · rw [h1] at h; exact h
  · rw [hp] at h
    have := List.all_eq_true.mp ha p hmem
    rw [h] at this
    simp at this

/-- Every character of a normalized list is non-whitespace. -/
theorem no_space_in_norm (l : List Char) :
    ∀ c ∈ normListChars l, isPySpace c = false := by
  intro c hc
  obtain ⟨d, hd, rfl⟩ := List.mem_map.mp hc
  have hds : notSpaceP d = true := (List.mem_filter.mp hd).2
  rw [isPySpace_lowerChar d]
  simpa [notSpaceP] using hds

/-- A character removed by the replacement chain and outside the lowercase
column never occurs in a normalized list. -/
theorem not_mem_norm_of_removes (a : Char) (l : List Char)
    (hrem : removesChar a normRepls = true)
    (hlow : asciiLowerTable.all (fun p => !(p.2 == a)) = true) :
    a ∉ normListChars l := by
  intro hmem
  obtain ⟨d, hd, hda⟩ := List.mem_map.mp hmem
  have hdu := (List.mem_filter.mp hd).1
  rw [eq_of_lowerChar_eq d a hlow hda] at hdu
  exact not_mem_applyReplacements_of_removes a normRepls hrem l hdu

/-- A singleton pattern does not occur in a list not containing its
character. -/
theorem containsSub_singleton_false (a : Char) (s : List Char) (h : a ∉ s) :
    containsSub [a] s = false := by
  induction s with
  | nil => rfl
  | cons c rest ih =>
    rw [containsSub, Bool.or_eq_false_iff]
    refine ⟨?_, ih (fun hm => h (List.mem_cons_of_mem c hm))⟩
    have hac : ¬ a = c := fun hac => h (hac ▸ List.mem_cons_self a rest)
    simp [List.isPrefixOf, hac]

/-- A matched prefix is contained in the scanned list. -/
theorem mem_of_isPrefixOf (pat : List Char) :
    ∀ (s : List Char), pat.isPrefixOf s = true → ∀ x ∈ pat, x ∈ s := by
  induction pat with
  | nil => intro s _ x hx; exact absurd hx (by simp)
  | cons p ps ih =>
    intro s h x hx
    cases s with
    | nil => exact absurd h (by simp [List.isPrefixOf])
    | cons q qs =>
      rw [List.isPrefixOf, Bool.and_eq_true] at h
      rcases List.mem_cons.mp hx with hx | hx
      · rw [hx, show p = q from by simpa using h.1]
        exact List.mem_cons_self q qs
      · exact List.mem_cons_of_mem q (ih qs h.2 x hx)

/-- Each character of a found pattern occurrence belongs to the scanned
list. -/
theorem mem_of_containsSub (pat : List Char) :
    ∀ (s : List Char), containsSub pat s = true → ∀ x ∈ pat, x ∈ s := by
  intro s
  induction s with
  | nil =>
    intro h x hx
    rw [containsSub] at h
    rw [List.isEmpty_iff.mp h] at hx
    exact absurd hx (by simp)
  | cons c rest ih =>
    intro h x hx
    rw [containsSub, Bool.or_eq_true] at h
    rcases h with h | h
    · exact mem_of_isPrefixOf pat (c :: rest) h x hx
    · exact List.mem_cons_of_mem c (ih h x hx)

/-- A pattern one of whose characters is missing from the scanned list does
not occur in it. -/
theorem containsSub_false_of_not_mem (pat s : List Char) (x : Char)
    (hx : x ∈ pat) (hs : x ∉ s) : containsSub pat s = false := by
  by_cases h : containsSub pat s = true
  · exact absurd (mem_of_containsSub pat s h x hx) hs
  · simpa using h

/-- None of the normalizer's replacement patterns occurs in a normalized
list that is free of the two `\text...` artifact markers. -/
theorem normRepls_conditions (l : List Char)
    (h1 : containsSub "\\textbullet".data (normListChars l) = false)
    (h2 : containsSub "\\textbar".data (normListChars l) = false) :
    ∀ p ∈ normRepls, containsSub p.1 (normListChars l) = false := by
  intro p hp
  fin_cases hp
  · exact h1
  · exact containsSub_singleton_false _ _
      (not_mem_norm_of_removes _ l (by decide) (by decide))
  · exact containsSub_singleton_false _ _
      (not_mem_norm_of_removes _ l (by decide) (by decide))
  · exact h2
  · refine containsSub_false_of_not_mem _ _ '\t' (by decide) ?_
    intro hm
    have := no_space_in_norm l '\t' hm
    exact absurd this (by decide)
  · exact containsSub_singleton_false _ _
      (not_mem_norm_of_removes _ l (by decide) (by decide))
  · exact containsSub_singleton_false _ _
      (not_mem_norm_of_removes _ l (by decide) (by decide))
  · exact containsSub_singleton_false _ _
      (not_mem_norm_of_removes _ l (by decide) (by decide))
  · exact containsSub_singleton_false _ _
      (not_mem_norm_of_removes _ l (by decide) (by decide))
  · exact containsSub_singleton_false _ _
      (not_mem_norm_of_removes _ l (by decide) (by decide))
  · exact containsSub_singleton_false _ _
      (not_mem_norm_of_removes _ l (by decide) (by decide))
  · exact containsSub_singleton_false _ _
      (not_mem_norm_of_removes _ l (by decide) (by decide))
  · exact containsSub_singleton_false _ _
      (not_mem_norm_of_removes _ l (by decide) (by decide))
  · exact containsSub_singleton_false _ _
      (not_mem_norm_of_removes _ l (by decide) (by decide))
  · exact containsSub_singleton_false _ _
      (not_mem_norm_of_removes _ l (by decide) (by decide))
  · exact containsSub_singleton_false _ _
      (not_mem_norm_of_removes _ l (by decide) (by decide))

/-- The normalizer body is a fixpoint on its own artifact-free output. -/
theorem normListChars_fixpoint (l : List Char)
    (h1 : containsSub "\\textbullet".data (normListChars l) = false)
    (h2 : containsSub "\\textbar".data (normListChars l) = false) :
    normListChars (normListChars l) = normListChars l := by
  have hrep := applyReplacements_eq_self normRepls (normListChars l)
    (normRepls_conditions l h1 h2)
  show ((applyReplacements normRepls (normListChars l)).filter notSpaceP).map
      lowerChar = normListChars l
  rw [hrep]
  have hf : (normListChars l).filter notSpaceP = normListChars l :=
    List.filter_eq_self.mpr (fun c hc => by
      simp [notSpaceP, no_space_in_norm l c hc])
  rw [hf]
  show (((applyReplacements normRepls l).filter notSpaceP).map lowerChar).map
      lowerChar = normListChars l
  rw [List.map_map]
  exact List.map_congr_left (fun c _ => lowerChar_idem c)

/-- The normalized form of a string, as a character list. -/
theorem normalize_data (s : String) :
    (normalize s).data = normListChars s.data := by
  by_cases hs : s = ""
  · subst hs; rfl
  · simp [normalize, hs]

/-- Claim C5 (counterexample): `normalize` is not idempotent — lowercasing
`\TEXTBULLET` exposes the artifact marker `\textbullet`, which a second
pass strips entirely. -/
theorem normalize_not_idempotent_cex :
    normalize (normalize "\\TEXTBULLET") ≠ normalize "\\TEXTBULLET" ∧
    normalize "\\TEXTBULLET" = "\\textbullet" ∧
    normalize (normalize "\\TEXTBULLET") = "" :=
  ⟨by decide, by decide, by decide⟩

/-- Claim C5 (amended): `normalize` has no side effects (it is a pure
function) and is idempotent on every string whose normalized form does not
contain the literal artifact markers `\textbullet` or `\textbar`; only an
input whose normalization exposes such a marker (e.g. via lowercasing) is
normalized differently a second time. -/
theorem normalize_idempotent_of_no_artifacts (s : String)
    (h1 : containsSubStr "\\textbullet" (normalize s) = false)
    (h2 : containsSubStr "\\textbar" (normalize s) = false) :
    normalize (normalize s) = normalize s := by
  have h1' : containsSub "\\textbullet".data (normListChars s.data) = false := by
    rw [containsSubStr, normalize_data s] at h1
    exact h1
  have h2' : containsSub "\\textbar".data (normListChars s.data) = false := by
    rw [containsSubStr, normalize_data s] at h2
    exact h2
  have normalize_eq_mk : ∀ t : String, t ≠ "" →
      normalize t = ⟨normListChars t.data⟩ := fun t h => by
    simp only [normalize, if_neg h]
  by_cases ht : normalize s = ""
  · rw [ht]; rfl
  · rw [normalize_eq_mk (normalize s) ht, normalize_data s,
      normListChars_fixpoint s.data h1' h2']
    exact congrArg String.mk (normalize_data s).symm

/-- Claim C5 (witness): idempotence at a concrete artifact-free input. -/
theorem normalize_idempotent_witness :
    containsSubStr "\\textbullet" (normalize "Hello World") = false ∧
    containsSubStr "\\textbar" (normalize "Hello World") = false ∧
    normalize (normalize "Hello World") = normalize "Hello World" :=
  ⟨by decide, by decide,
    normalize_idempotent_of_no_artifacts "Hello World" (by decide) (by decide)⟩

/-- Claim C10: tools/pdf_parser.py imports `sanitize_text` from lib.utils
at module load, but lib.utils defines `normalize_text` and no
`sanitize_text`, so loading the module fails with an `ImportError` before
any extraction code can run. -/
theorem pdf_parser_import_error :
    pdfParserModuleLoad
      = Except.error "ImportError: cannot import name \x27sanitize_text\x27" ∧
    "sanitize_text" ∉ libUtilsDefinedNames ∧
    "normalize_text" ∈ libUtilsDefinedNames :=
  ⟨rfl, by decide, by decide⟩

end ARI
